import Mathlib

/-!
Verification of the data normalization and categorization pipeline of
`src/livedata.py` (the CIVIL-WORK-DASH dashboard).

The development shallowly embeds the pure core of the program:

* `normalize_budget`   — budget-string normalizer (livedata.py, lines 163-179);
* `categorize_project_revised` — ordered keyword classifier (lines 124-158);
* `determine_status`   — status resolver (lines 228-240, nested in `clean_dataframe`);
* `clean_dataframe`    — record normalizer over a tabular frame (lines 181-248);
* the mock fixtures (`get_mock_data`, lines 273-295) and the module-level
  master-frame KPI computations (total / completed / has-issues counts) and
  issue filters (lines 403-412 and 591-596).

Python strings are modelled as Lean `String` (ASCII case mapping, as the
repository's data is ASCII), Python floats as `ℚ` (every arithmetic step of
the pipeline — ×100, /100000, decimal literals — is exact), pandas scalar
cells as the `RawVal` sum type with `na` standing for NaN/None, and a pandas
frame as a column-name list plus rows of cells (`DF`).
-/

/-! ## Python-style character and string primitives -/

/-- Whitespace characters removed by Python's `str.strip()`:
space, tab, newline, carriage return, vertical tab, form feed. -/
def isPyWs (c : Char) : Bool :=
  c.toNat = 32 || c.toNat = 9 || c.toNat = 10 || c.toNat = 13 ||
  c.toNat = 11 || c.toNat = 12

/-- ASCII lower-case letter test. -/
def isAsciiLower (c : Char) : Bool := 97 ≤ c.toNat && c.toNat ≤ 122

/-- ASCII upper-case letter test. -/
def isAsciiUpper (c : Char) : Bool := 65 ≤ c.toNat && c.toNat ≤ 90

/-- A cased character in the sense of Python's `str.title()` (ASCII letters). -/
def isCasedChar (c : Char) : Bool := isAsciiLower c || isAsciiUpper c

/-- Upper-case an ASCII letter, leave anything else unchanged. -/
def charUpr (c : Char) : Char :=
  if isAsciiLower c then Char.ofNat (c.toNat - 32) else c

/-- Lower-case an ASCII letter, leave anything else unchanged. -/
def charLwr (c : Char) : Char :=
  if isAsciiUpper c then Char.ofNat (c.toNat + 32) else c

/-- Core loop of Python's `str.title()`: a cased character is upper-cased when
the previous character was not cased and lower-cased otherwise. -/
def titleGo : Bool → List Char → List Char
  | _, [] => []
  | prevCased, c :: cs =>
    if isCasedChar c then
      (if prevCased then charLwr c else charUpr c) :: titleGo true cs
    else
      c :: titleGo false cs

/-- Python's `str.title()`. -/
def pyTitle (s : String) : String := String.mk (titleGo false s.data)

/-- Drop trailing Python whitespace. -/
def stripEndL (l : List Char) : List Char := (l.reverse.dropWhile isPyWs).reverse

/-- Strip Python whitespace from both ends (trailing first, then leading;
the two removals are independent). -/
def stripL (l : List Char) : List Char := (stripEndL l).dropWhile isPyWs

/-- Python's `str.strip()`. -/
def pyStrip (s : String) : String := String.mk (stripL s.data)

/-- Does `hay` start with `needle` (first argument is the needle)? -/
def startsWithL : List Char → List Char → Bool
  | [], _ => true
  | _ :: _, [] => false
  | a :: as, b :: bs => a = b && startsWithL as bs

/-- Does the second list contain the first as a contiguous sublist? -/
def containsL (needle : List Char) : List Char → Bool
  | [] => startsWithL needle []
  | c :: cs => startsWithL needle (c :: cs) || containsL needle cs

/-- Python's substring test `needle in hay`. -/
def strContains (hay needle : String) : Bool := containsL needle.data hay.data

/-- Python's `str.lower()` (ASCII). -/
def strLower (s : String) : String := String.mk (s.data.map charLwr)

/-- Python's `str.upper()` (ASCII). -/
def strUpper (s : String) : String := String.mk (s.data.map charUpr)

/-- Python's `str.replace(",", "")`: delete every comma. -/
def dropCommas (s : String) : String := String.mk (s.data.filter (fun c => c ≠ ','))

/-! ## Scalar cells -/

/-- A scalar cell of the spreadsheet: a string, an integer, a float
(modelled exactly as a rational), or a missing value (NaN/None/NaT). -/
inductive RawVal where
  | str (s : String)
  | int (n : ℤ)
  | rat (q : ℚ)
  | na
deriving DecidableEq, Repr

/-- Model of `pd.isna` on a scalar cell. -/
def isna : RawVal → Bool
  | .na => true
  | _ => false

/-- Decimal digits of the fractional remainder `rem/den`, most significant
first; the fuel bounds the expansion (floats always terminate; the pipeline
never stringifies a float, so this rendering is a defensive total case). -/
def fracGo : ℕ → ℕ → ℕ → List Char
  | _, _, 0 => []
  | rem, den, fuel + 1 =>
    if rem = 0 then []
    else Char.ofNat (48 + rem * 10 / den) :: fracGo (rem * 10 % den) den fuel

/-- Decimal rendering of a rational, in the style of Python's `str` on a
float (`str(60.0) = "60.0"`). -/
def ratToStr (q : ℚ) : String :=
  let sgn := if q < 0 then "-" else ""
  let n := q.num.natAbs
  let frac := fracGo (n % q.den) q.den 20
  sgn ++ toString (n / q.den) ++ "." ++ (if frac.isEmpty then "0" else String.mk frac)

/-- Python's `str(value)` on a scalar cell (`str(float("nan")) = "nan"`). -/
def strOfRawVal : RawVal → String
  | .str s => s
  | .int n => toString n
  | .rat q => ratToStr q
  | .na => "nan"

/-! ## Budget normalizer (`normalize_budget`, livedata.py lines 163-179) -/

/-- Numeric value of a list of decimal digit characters. -/
def digitsToNat (l : List Char) : ℕ :=
  l.foldl (fun a c => 10 * a + (c.toNat - 48)) 0

/-- Magnitude of a numeric token: digits, optionally followed by a dot and
fractional digits (Python `float` on the tokens the regex can produce). -/
def parseMag (l : List Char) : ℚ :=
  let ip := l.takeWhile Char.isDigit
  match l.dropWhile Char.isDigit with
  | '.' :: fr => (digitsToNat ip : ℚ) + (digitsToNat fr : ℚ) / (10 : ℚ) ^ fr.length
  | _ => (digitsToNat ip : ℚ)

/-- Python `float` on a token extracted by the budget regex
(optional sign, then a magnitude). -/
def parseTok : List Char → ℚ
  | [] => parseMag []
  | c :: rest =>
    if c = '-' then -(parseMag rest)
    else if c = '+' then parseMag rest
    else parseMag (c :: rest)

/-- First alternative of the regex `[-+]?\d*\.\d+|\d+` at the current
position: optional sign, greedy digits, a literal dot, then at least one
digit.  (Shrinking the greedy `\d*` can never repair a failed dot match, so
the greedy scan is exact.) -/
def numAlt1 (l : List Char) : Option (List Char) :=
  let sgnRest : List Char × List Char :=
    match l with
    | c :: cs => if c = '-' || c = '+' then ([c], cs) else ([], l)
    | [] => ([], [])
  let ip := sgnRest.2.takeWhile Char.isDigit
  match sgnRest.2.dropWhile Char.isDigit with
  | '.' :: r2 =>
    let fp := r2.takeWhile Char.isDigit
    if fp.isEmpty then none else some (sgnRest.1 ++ ip ++ '.' :: fp)
  | _ => none

/-- Second alternative of the regex: one or more digits. -/
def numAlt2 (l : List Char) : Option (List Char) :=
  let d := l.takeWhile Char.isDigit
  if d.isEmpty then none else some d

/-- First match of `re.findall(r"[-+]?\d*\.\d+|\d+", ·)`: scan positions left
to right, trying the signed-decimal alternative before the integer one. -/
def findNum : List Char → Option (List Char)
  | [] => none
  | c :: cs =>
    match numAlt1 (c :: cs) with
    | some t => some t
    | none =>
      match numAlt2 (c :: cs) with
      | some t => some t
      | none => findNum cs

/-- The cleaned budget string: `str(value).lower().replace(',', '').strip()`. -/
def budgetClean (s : String) : String := pyStrip (dropCommas (strLower s))

/-- Unit-resolution step of `normalize_budget`: given whether the cleaned
string mentions crore/cr and lakh, convert the extracted number to Lakhs. -/
def budgetFromTok (cr lakh : Bool) (tok : List Char) : ℚ :=
  if cr then parseTok tok * 100
  else if lakh then parseTok tok
  else if parseTok tok > 10000 then parseTok tok / 100000
  else parseTok tok

/-- Model of `normalize_budget` (livedata.py lines 163-179): standardize a
budget cell to a float amount in Lakhs. -/
def normalize_budget (value : RawVal) : ℚ :=
  if isna value then 0
  else
    let sVal := budgetClean (strOfRawVal value)
    match findNum sVal.data with
    | none => 0
    | some tok =>
      budgetFromTok (strContains sVal "crore" || strContains sVal "cr")
        (strContains sVal "lakh") tok

/-! ## Project categorizer (`categorize_project_revised`, lines 124-158) -/

/-- Rule 1 keyword test (AWC Building). -/
def rule1Hit (d : String) : Bool :=
  strContains d "ANGANWADI" || strContains d "AWC"

/-- Rule 2 keyword test (Medical Building). -/
def rule2Hit (d : String) : Bool :=
  strContains d "HOSPITAL" || strContains d "PHC" ||
  strContains d "SUB HEALTH CENTER" ||
  (strContains d "MEDICAL" && (strContains d "COLLEGE" || strContains d "HEALTH"))

/-- Rule 3 keyword test (School/Hostel). -/
def rule3Hit (d : String) : Bool :=
  strContains d "SCHOOL" || strContains d "KGBV" || strContains d "ZPHS" ||
  strContains d "HOSTEL" || strContains d "PATASHALA" ||
  strContains d "EDUCATION" || strContains d "LIBRARY"

/-- Rule 4 keyword test (Water/Borewell). -/
def rule4Hit (d : String) : Bool :=
  strContains d "BORE WELL" || strContains d "SUBMERSIBLE PUMPSET" ||
  strContains d "WATER SUPPLY" || strContains d "RWS" || strContains d "SUMP" ||
  strContains d "OVERHEAD" || strContains d "PIPELINE"

/-- Rule 5 keyword test (CC Road/Drain). -/
def rule5Hit (d : String) : Bool :=
  strContains d "CC ROAD" || strContains d "CC DRAIN" || strContains d "SIDE DRAIN"

/-- Rule 6 keyword test (Major Road/Bridge). -/
def rule6Hit (d : String) : Bool :=
  strContains d "PWD ROAD" || strContains d "ZP ROAD" || strContains d "RNB" ||
  strContains d "RENEWAL" || strContains d "WIDENING" ||
  strContains d "STRENGTHENING" || strContains d "BRIDGE" ||
  strContains d "ROAD" || strContains d "R/F" || strContains d "IMPROVEMENTS"

/-- Rule 7 keyword test (Other Building/Civil Works). -/
def rule7Hit (d : String) : Bool :=
  strContains d "BUILDING" || strContains d "GP" || strContains d "MPP" ||
  strContains d "COMMUNITY HALL" || strContains d "MARKET" ||
  strContains d "BUS STAND SHELTER" || strContains d "TEMPLE" ||
  strContains d "MASJID" || strContains d "COMPLEX" || strContains d "WALL" ||
  strContains d "PACS" || strContains d "ARCH GATE" ||
  strContains d "PILGRIM SHED" || strContains d "PRASADAM COUNTERS" ||
  strContains d "KALYANA KATTA" || strContains d "VAIKUNTA DHAMAM" ||
  strContains d "COMPOUND WALL" || strContains d "ELECTRICAL" ||
  strContains d "VIGRAHAM" || strContains d "HARATHI" ||
  strContains d "PILLARS" || strContains d "CONSTRUCTION OF" ||
  strContains d "BALANCE WORK" || strContains d "FORMATION" ||
  strContains d "QUARTERS" || strContains d "RESIDENTIAL"

/-- Model of `categorize_project_revised` (livedata.py lines 124-158): the
upper-cased stringified description is matched against the keyword rules in
source order, first hit wins. -/
def categorize_project_revised (description : RawVal) : String :=
  let desc := strUpper (strOfRawVal description)
  if rule1Hit desc then "AWC Building"
  else if rule2Hit desc then "Medical Building"
  else if rule3Hit desc then "School/Hostel"
  else if rule4Hit desc then "Water/Borewell"
  else if rule5Hit desc then "CC Road/Drain"
  else if rule6Hit desc then "Major Road/Bridge"
  else if rule7Hit desc then "Other Building/Civil Works"
  else "Uncategorized"

/-- The classifier's rule table as an explicit ordered list of
(predicate, category) pairs, in source order. -/
def catRules : List ((String → Bool) × String) :=
  [(rule1Hit, "AWC Building"),
   (rule2Hit, "Medical Building"),
   (rule3Hit, "School/Hostel"),
   (rule4Hit, "Water/Borewell"),
   (rule5Hit, "CC Road/Drain"),
   (rule6Hit, "Major Road/Bridge"),
   (rule7Hit, "Other Building/Civil Works")]

/-- First-match-wins evaluation of an ordered rule list, defaulting to
"Uncategorized". -/
def firstMatch : List ((String → Bool) × String) → String → String
  | [], _ => "Uncategorized"
  | r :: rest, d => if r.1 d then r.2 else firstMatch rest d

/-! ## Status resolver and per-column cleaners (inside `clean_dataframe`) -/

/-- The status-text sentinels mapped to "N/A" (livedata.py line 233). -/
def statusSentinels : List String := ["nan", "none", "", "nat"]

/-- Textual branch of `determine_status`, applied to the lower-cased,
stripped status text. -/
def statusFromText (val : String) : String :=
  if val ∈ statusSentinels then "N/A"
  else if strContains val "complete" then "Completed"
  else "In Progress"

/-- Python `row["Is Completed"] == 1` on a scalar cell (strings and missing
values never equal the integer 1). -/
def eqOneRV : RawVal → Bool
  | .int n => n = 1
  | .rat q => q = 1
  | _ => false

/-- Model of `pd.to_numeric(·, errors='coerce')` on a string: an optional
sign, digits with at most one decimal point and at least one digit, with
surrounding whitespace allowed; anything else coerces to NaN (`none`). -/
def parseNumStr (s : String) : Option ℚ :=
  let l := stripL s.data
  let sgnRest : Bool × List Char :=
    match l with
    | '-' :: cs => (true, cs)
    | '+' :: cs => (false, cs)
    | _ => (false, l)
  let ip := sgnRest.2.takeWhile Char.isDigit
  let mag : List Char → Option ℚ := fun fr =>
    if ip.isEmpty && fr.isEmpty then none
    else
      let m : ℚ := (digitsToNat ip : ℚ) + (digitsToNat fr : ℚ) / (10 : ℚ) ^ fr.length
      some (if sgnRest.1 then -m else m)
  match sgnRest.2.dropWhile Char.isDigit with
  | [] => mag []
  | '.' :: fr => if fr.all Char.isDigit then mag fr else none
  | _ => none

/-- Model of `pd.to_numeric(·, errors='coerce')` on a scalar cell. -/
def toNumericOpt : RawVal → Option ℚ
  | .int n => some (n : ℚ)
  | .rat q => some q
  | .na => none
  | .str s => parseNumStr s

/-- Truncation toward zero, the behaviour of `astype(int)` on a float. -/
def ratTruncZ (q : ℚ) : ℤ :=
  if 0 ≤ q.num then (q.num.natAbs / q.den : ℕ) else -((q.num.natAbs / q.den : ℕ) : ℤ)

/-- The Priority coercion of `clean_dataframe` (lines 220-225):
`pd.to_numeric(·, errors='coerce').fillna(0).astype(int)`. -/
def coercePriority (v : RawVal) : ℤ :=
  match toNumericOpt v with
  | none => 0
  | some q => ratTruncZ q

/-- The post-title sentinels replaced by "N/A" in the Mandal column
(line 216). -/
def mandalSentinels : List String := ["Nan", "NaN", "", "None", "Nat"]

/-- The Mandal cleaning of `clean_dataframe` (lines 213-216): fill missing
with "N/A", stringify, strip, title-case, then map sentinels to "N/A". -/
def mandalClean (v : RawVal) : String :=
  let s0 := match v with
    | .na => "N/A"
    | w => strOfRawVal w
  let s1 := pyTitle (pyStrip s0)
  if s1 ∈ mandalSentinels then "N/A" else s1

/-- The Issues cleaning of `clean_dataframe` (line 244):
`fillna("").astype(str)`. -/
def issuesClean (v : RawVal) : String :=
  match v with
  | .na => ""
  | w => strOfRawVal w

/-! ## Tabular frames -/

/-- A pandas frame: a list of column names and rows of cells, each row
aligned positionally with the column list. -/
structure DF where
  cols : List String
  rows : List (List RawVal)
deriving DecidableEq, Repr

/-- Index of the first column with the given name. -/
def colIdx (cols : List String) (c : String) : Option ℕ :=
  match cols with
  | [] => none
  | c0 :: rest => if c0 = c then some 0 else (colIdx rest c).map (· + 1)

/-- Value of row `r` at column `c` (`row[c]`). -/
def getVal (cols : List String) (r : List RawVal) (c : String) : Option RawVal :=
  (colIdx cols c).bind r.get?

/-- Alignment well-formedness: every row has exactly one cell per column. -/
def DF.WF (df : DF) : Prop := ∀ r ∈ df.rows, r.length = df.cols.length

/-- Column-name effect of the assignment `df[c] = ...`: unchanged when the
column exists, appended on the right otherwise. -/
def setColsFun (cols : List String) (c : String) : List String :=
  match colIdx cols c with
  | some _ => cols
  | none => cols ++ [c]

/-- Row effect of the assignment `df[c] = f(row)`: overwrite the cell in
place when the column exists, append it otherwise. -/
def setRowFun (cols : List String) (c : String) (f : List RawVal → RawVal)
    (r : List RawVal) : List RawVal :=
  match colIdx cols c with
  | some i => r.set i (f r)
  | none => r ++ [f r]

/-- Column assignment `df[c] = f(row)` (pandas assignment semantics). -/
def setColDF (df : DF) (c : String) (f : List RawVal → RawVal) : DF :=
  ⟨setColsFun df.cols c, df.rows.map (setRowFun df.cols c f)⟩

/-- Model of `determine_status` (lines 228-238) on one row: an
`Is Completed` cell equal to 1 wins; otherwise the textual `Status` column
decides when present; otherwise "N/A". -/
def determine_status (cols : List String) (r : List RawVal) : String :=
  if (getVal cols r "Is Completed").elim false eqOneRV then "Completed"
  else if "Status" ∈ cols then
    statusFromText (pyStrip (strLower (strOfRawVal ((getVal cols r "Status").getD .na))))
  else "N/A"

/-- The `col_map` if/elif chain of `clean_dataframe` (lines 183-198) as an
ordered (needle, canonical name) alias table, in source order. -/
def colAliasRules : List (String × String) :=
  [("work name", "Work Name"), ("budget", "Budget (Lakhs)"), ("mandal", "Mandal"),
   ("village", "Village"), ("agency", "Agency"), ("contractor", "Contractor"),
   ("stage", "Status"), ("issues", "Issues"), ("completed", "Is Completed"),
   ("admin sanction date", "Sanction Date"), ("scheme", "Scheme"),
   ("priority", "Priority"), ("sl. no", "Sl. No.")]

/-- First alias rule whose needle occurs in the lower-cased header. -/
def aliasLookup : List (String × String) → String → Option String
  | [], _ => none
  | p :: rest, cl => if strContains cl p.1 then some p.2 else aliasLookup rest cl

/-- Header-alias resolution of `clean_dataframe` (lines 183-198): the first
matching alias rule renames the column; unmatched headers are left unchanged
by `rename`. -/
def mapColName (col : String) : String :=
  (aliasLookup colAliasRules (strLower col)).getD col

/-- Department tagging (line 204): `df["Department"] = dept_name` when a
group label is supplied. -/
def stepDept (df : DF) (dept : Option String) : DF :=
  match dept with
  | some d => setColDF df "Department" (fun _ => .str d)
  | none => df

/-- Normalized Budget assignment (lines 207-210). -/
def stepBudget (df : DF) : DF :=
  if "Budget (Lakhs)" ∈ df.cols then
    setColDF df "Normalized Budget"
      (fun r => .rat (normalize_budget ((getVal df.cols r "Budget (Lakhs)").getD .na)))
  else setColDF df "Normalized Budget" (fun _ => .rat 0)

/-- Mandal cleaning (lines 213-218). -/
def stepMandal (df : DF) : DF :=
  if "Mandal" ∈ df.cols then
    setColDF df "Mandal" (fun r => .str (mandalClean ((getVal df.cols r "Mandal").getD .na)))
  else setColDF df "Mandal" (fun _ => .str "N/A")

/-- Priority coercion (lines 220-225). -/
def stepPriority (df : DF) : DF :=
  if "Priority" ∈ df.cols then
    setColDF df "Priority"
      (fun r => .int (coercePriority ((getVal df.cols r "Priority").getD .na)))
  else setColDF df "Priority" (fun _ => .int 0)

/-- Status Label computation (line 240). -/
def stepStatusLabel (df : DF) : DF :=
  setColDF df "Status Label" (fun r => .str (determine_status df.cols r))

/-- Issues defaulting (lines 243-246). -/
def stepIssues (df : DF) : DF :=
  if "Issues" ∈ df.cols then
    setColDF df "Issues" (fun r => .str (issuesClean ((getVal df.cols r "Issues").getD .na)))
  else setColDF df "Issues" (fun _ => .str "")

/-- The column-cleaning chain of `clean_dataframe` after header renaming
(lines 202-248): Department tag, Normalized Budget, Mandal, Priority,
Status Label, Issues, in source order. -/
def cleanSteps (df : DF) (dept : Option String) : DF :=
  stepIssues (stepStatusLabel (stepPriority (stepMandal (stepBudget (stepDept df dept)))))

/-- Header renaming step of `clean_dataframe` (`df.rename(columns=col_map)`). -/
def renameDF (df : DF) : DF := ⟨df.cols.map mapColName, df.rows⟩

/-- Model of `clean_dataframe` (lines 181-248). -/
def clean_dataframe (df : DF) (dept : Option String) : DF :=
  cleanSteps (renameDF df) dept

/-- The normalization pass under the identity header mapping: canonical
column names are taken as-is instead of alias-resolved.  This is the reading
stipulated by the idempotence property ("the canonical fields taken as the
new raw input under identity column mapping"). -/
def clean_dataframe_idmap (df : DF) (dept : Option String) : DF :=
  cleanSteps df dept

/-! ## Mock fixtures and master-frame KPIs (lines 273-295 and 373-412) -/

/-- The five-row PR sheet of `get_mock_data`. -/
def pr_df : DF :=
  ⟨["Sl. No.", "Work Name", "Mandal", "Budget (Lakhs)", "Status", "Issues", "Priority"],
   [[.int 1, .str "PWD Road T02", .str "Mahamutharam", .int 60, .str "Progress", .str "", .int 0],
    [.int 2, .str "ZP Road Vajenepalli", .str "mahamutharam", .int 180, .str "Progress", .str "Land Acquisition", .int 1],
    [.int 3, .str "ZP Road Lingapur", .str "Mahamutharam", .int 93, .str "Progress", .str "", .int 0],
    [.int 4, .str "Anganwadi Center 1", .str "", .int 16, .str "Completed", .str "", .int 0],
    [.int 5, .str "Anganwadi Center 2", .str "Mahamutharam", .int 16, .str "", .str "Funds", .int 1]]⟩

/-- The four-row Medical sheet of `get_mock_data`. -/
def med_df : DF :=
  ⟨["Sl. No.", "Work Name", "Mandal", "Budget (Lakhs)", "Status", "Issues", "Priority"],
   [[.int 1, .str "Nursing College", .str "Bhupalpally", .int 2600, .str "Retaining wall", .str "Site Dispute", .int 1],
    [.int 2, .str "Critical Care Block", .str "Bhupalpally", .int 2375, .str "Painting", .str "", .int 1],
    [.int 3, .str "Sub Centre Regonda", .str "Regonda", .int 20, .str "Completed", .str "", .int 0],
    [.int 4, .str "Sub Centre Thirumalagiri", .str "Regonda", .int 20, .str "Completed", .str "", .int 0]]⟩

/-- The cleaned PR sheet of `get_mock_data`. -/
def mock_pr_clean : DF := clean_dataframe pr_df (some "PR")

/-- The cleaned Medical sheet of `get_mock_data`. -/
def mock_med_clean : DF := clean_dataframe med_df (some "Medical")

/-- Row-wise concatenation of frames sharing one column schema
(`pd.concat`; the two cleaned mock sheets have identical columns). -/
def concatDF (a b : DF) : DF := ⟨a.cols, a.rows ++ b.rows⟩

/-- The master-frame Project Type assignment (lines 377-378): applied when
the frame is non-empty and has a `Work Name` column. -/
def addProjectType (df : DF) : DF :=
  if df.rows ≠ [] ∧ "Work Name" ∈ df.cols then
    setColDF df "Project Type"
      (fun r => .str (categorize_project_revised ((getVal df.cols r "Work Name").getD .na)))
  else df

/-- The demo-data master frame: cleaned PR and Medical sheets concatenated,
then categorized. -/
def master_mock : DF := addProjectType (concatDF mock_pr_clean mock_med_clean)

/-- KPI `total_projects = len(master_df)` (line 403). -/
def totalProjects (df : DF) : ℕ := df.rows.length

/-- KPI `completed_total` (line 411): rows whose Status Label is
"Completed". -/
def completedCount (df : DF) : ℕ :=
  (df.rows.filter
    (fun r => decide (getVal df.cols r "Status Label" = some (RawVal.str "Completed")))).length

/-- The three-part has-issues test applied to an Issues string
(lines 405-409 and 592-596). -/
def hasIssuesStr (s : String) : Bool :=
  decide (1 < s.length) && !(strLower s == "nan") && !(pyStrip s == "-")

/-- The has-issues row predicate: pandas `.str` accessors yield NaN on
non-string cells, so only string cells can pass the filter. -/
def issuesPred (cols : List String) (r : List RawVal) : Bool :=
  match getVal cols r "Issues" with
  | some (.str s) => hasIssuesStr s
  | _ => false

/-- The issues filter (`issues_df`, lines 405-409; same predicate in the
department view, lines 592-596). -/
def issuesFilterDF (df : DF) : DF := ⟨df.cols, df.rows.filter (issuesPred df.cols)⟩

/-- KPI `total_issues = len(issues_df)` (line 410). -/
def issuesCount (df : DF) : ℕ := (issuesFilterDF df).rows.length

/-! ## Spec-side definition for the budget unit-precedence claim -/

/-- The budget unit-resolution rule as the specification words it: on the
lower-cased, comma-stripped input, crore/cr multiplies the extracted number
by 100; else lakh keeps it; else a bare number over 10000 is divided by
100000; else it is kept; missing input or no numeric token yields 0. -/
def budgetSpecRule (value : RawVal) : ℚ :=
  if isna value then 0
  else
    let cleaned := budgetClean (strOfRawVal value)
    match findNum cleaned.data with
    | none => 0
    | some tok =>
      let n := parseTok tok
      if strContains cleaned "crore" || strContains cleaned "cr" then n * 100
      else if strContains cleaned "lakh" then n
      else if 10000 < n then n / 100000
      else n

/-! ## Basic lemmas about column lookup and assignment -/

theorem colIdx_lt_length {cols : List String} {c : String} {i : ℕ}
    (h : colIdx cols c = some i) : i < cols.length := by
  induction cols generalizing i with
  | nil => simp [colIdx] at h
  | cons c0 rest ih =>
    by_cases h0 : c0 = c
    · have h2 : (0 : ℕ) = i := by simpa [colIdx, h0] using h
      simp only [List.length_cons]
      omega
    · simp [colIdx, h0, Option.map_eq_some'] at h
      obtain ⟨j, hj, hji⟩ := h
      have := ih hj
      simp only [List.length_cons]
      omega

theorem colIdx_get {cols : List String} {c : String} {i : ℕ}
    (h : colIdx cols c = some i) : cols.get? i = some c := by
  induction cols generalizing i with
  | nil => simp [colIdx] at h
  | cons c0 rest ih =>
    by_cases h0 : c0 = c
    · simp [colIdx, h0] at h
      simp [← h, h0]
    · simp [colIdx, h0, Option.map_eq_some'] at h
      obtain ⟨j, hj, hji⟩ := h
      subst hji
      simpa using ih hj

theorem colIdx_isSome_of_mem {cols : List String} {c : String}
    (h : c ∈ cols) : (colIdx cols c).isSome := by
  induction cols with
  | nil => simp at h
  | cons c0 rest ih =>
    by_cases h0 : c0 = c
    · simp [colIdx, h0]
    · rcases List.mem_cons.mp h with h1 | h1
      · exact absurd h1.symm h0
      · simpa [colIdx, h0, Option.isSome_map] using ih h1

theorem colIdx_eq_none_of_not_mem {cols : List String} {c : String}
    (h : c ∉ cols) : colIdx cols c = none := by
  induction cols with
  | nil => rfl
  | cons c0 rest ih =>
    have h0 : c0 ≠ c := fun he => h (he ▸ List.mem_cons_self c0 rest)
    have h1 : c ∉ rest := fun hm => h (List.mem_cons_of_mem _ hm)
    simp [colIdx, h0, ih h1]

theorem mem_of_colIdx_isSome {cols : List String} {c : String}
    (h : (colIdx cols c).isSome) : c ∈ cols := by
  by_contra hc
  rw [colIdx_eq_none_of_not_mem hc] at h
  simp at h

theorem colIdx_append_of_some {cols : List String} {c : String} {i : ℕ}
    (h : colIdx cols c = some i) (ext : List String) :
    colIdx (cols ++ ext) c = some i := by
  induction cols generalizing i with
  | nil => simp [colIdx] at h
  | cons c0 rest ih =>
    by_cases h0 : c0 = c
    · simp [colIdx, h0] at h ⊢
      exact h
    · simp [colIdx, h0, Option.map_eq_some'] at h ⊢
      obtain ⟨j, hj, hji⟩ := h
      exact ⟨j, ih hj, hji⟩

theorem colIdx_append_self {cols : List String} {c : String}
    (h : colIdx cols c = none) : colIdx (cols ++ [c]) c = some cols.length := by
  induction cols with
  | nil => simp [colIdx]
  | cons c0 rest ih =>
    by_cases h0 : c0 = c
    · simp [colIdx, h0] at h
    · simp [colIdx, h0] at h ⊢
      simp [ih h]

theorem colIdx_append_none {cols : List String} {c x : String}
    (h : colIdx cols x = none) (hx : x ≠ c) : colIdx (cols ++ [c]) x = none := by
  induction cols with
  | nil =>
    simp only [List.nil_append]
    simp [colIdx]
    exact fun he => hx he.symm
  | cons c0 rest ih =>
    by_cases h0 : c0 = x
    · simp [colIdx, h0] at h
    · simp [colIdx, h0] at h ⊢
      simp [ih h]

theorem lget_set_ne {α : Type} (l : List α) (i j : ℕ) (v : α) (h : i ≠ j) :
    (l.set i v).get? j = l.get? j := by
  induction l generalizing i j with
  | nil => simp
  | cons a t ih =>
    cases i with
    | zero =>
      cases j with
      | zero => exact absurd rfl h
      | succ j0 => simp
    | succ i0 =>
      cases j with
      | zero => simp
      | succ j0 =>
        simp only [List.set_cons_succ, List.get?_cons_succ]
        exact ih i0 j0 (fun he => h (by omega))

theorem lget_set_self {α : Type} (l : List α) (i : ℕ) (v : α) (h : i < l.length) :
    (l.set i v).get? i = some v := by
  induction l generalizing i with
  | nil => simp at h
  | cons a t ih =>
    cases i with
    | zero => simp
    | succ i0 =>
      simp only [List.set_cons_succ, List.get?_cons_succ]
      exact ih i0 (by simpa using h)

theorem lset_of_get {α : Type} (l : List α) (i : ℕ) (v : α) (h : l.get? i = some v) :
    l.set i v = l := by
  induction l generalizing i with
  | nil => simp
  | cons a t ih =>
    cases i with
    | zero => simp_all
    | succ i0 =>
      simp only [List.get?_cons_succ] at h
      simp [ih i0 h]

theorem lget_append_left {α : Type} (l m : List α) (j : ℕ) (h : j < l.length) :
    (l ++ m).get? j = l.get? j := by
  induction l generalizing j with
  | nil => simp at h
  | cons a t ih =>
    cases j with
    | zero => simp
    | succ j0 =>
      simp only [List.cons_append, List.get?_cons_succ]
      exact ih j0 (by simpa using h)

theorem lget_append_length {α : Type} (l : List α) (v : α) :
    (l ++ [v]).get? l.length = some v := by
  induction l with
  | nil => simp
  | cons a t ih => simp [ih]

/-! ## Lemmas about `setColDF` -/

theorem mem_setColsFun {cols : List String} {c x : String} :
    x ∈ setColsFun cols c ↔ x ∈ cols ∨ x = c := by
  unfold setColsFun
  cases hci : colIdx cols c with
  | some i =>
    have hc : c ∈ cols := mem_of_colIdx_isSome (by simp [hci])
    constructor
    · exact fun h => Or.inl h
    · rintro (h | rfl)
      · exact h
      · exact hc
  | none => simp

theorem setColsFun_of_mem {cols : List String} {c : String} (h : c ∈ cols) :
    setColsFun cols c = cols := by
  unfold setColsFun
  cases hci : colIdx cols c with
  | some i => rfl
  | none =>
    have := colIdx_isSome_of_mem h
    rw [hci] at this
    simp at this

theorem setRowFun_length {cols : List String} {c : String} {f : List RawVal → RawVal}
    {r : List RawVal} (hlen : r.length = cols.length) :
    (setRowFun cols c f r).length = (setColsFun cols c).length := by
  unfold setRowFun setColsFun
  cases hci : colIdx cols c with
  | some i => simp [hlen]
  | none => simp [hlen]

theorem setColDF_WF {df : DF} {c : String} {f : List RawVal → RawVal} (h : df.WF) :
    (setColDF df c f).WF := by
  intro r2 hr2
  simp only [setColDF] at hr2 ⊢
  obtain ⟨r, hr, rfl⟩ := List.mem_map.mp hr2
  exact setRowFun_length (h r hr)

theorem getVal_setRow_self {cols : List String} {c : String} {f : List RawVal → RawVal}
    {r : List RawVal} (hlen : r.length = cols.length) :
    getVal (setColsFun cols c) (setRowFun cols c f r) c = some (f r) := by
  cases hci : colIdx cols c with
  | some i =>
    simp only [getVal, setColsFun, setRowFun, hci, Option.bind_some]
    exact lget_set_self r i (f r) (hlen ▸ colIdx_lt_length hci)
  | none =>
    simp only [getVal, setColsFun, setRowFun, hci, colIdx_append_self hci, Option.bind_some]
    rw [← hlen]
    exact lget_append_length r (f r)

theorem getVal_setRow_ne {cols : List String} {c x : String} {f : List RawVal → RawVal}
    {r : List RawVal} (hx : x ≠ c) (hlen : r.length = cols.length) :
    getVal (setColsFun cols c) (setRowFun cols c f r) x = getVal cols r x := by
  cases hci : colIdx cols c with
  | some i =>
    cases hxe : colIdx cols x with
    | some j =>
      simp only [getVal, setColsFun, setRowFun, hci, hxe, Option.bind_some]
      have hji : i ≠ j := by
        intro he
        have h1 := colIdx_get hci
        have h2 := colIdx_get hxe
        rw [he, h2] at h1
        exact hx (Option.some.inj h1)
      exact lget_set_ne r i j (f r) hji
    | none => simp [getVal, setColsFun, setRowFun, hci, hxe]
  | none =>
    cases hxe : colIdx cols x with
    | some j =>
      simp only [getVal, setColsFun, setRowFun, hci, colIdx_append_of_some hxe [c],
        hxe, Option.bind_some]
      exact lget_append_left r [f r] j (hlen ▸ colIdx_lt_length hxe)
    | none =>
      simp [getVal, setColsFun, setRowFun, hci, colIdx_append_none hxe hx, hxe]

theorem map_eq_self_of {α : Type} (l : List α) (g : α → α) (h : ∀ a ∈ l, g a = a) :
    l.map g = l := by
  induction l with
  | nil => rfl
  | cons a t ih =>
    simp only [List.map_cons]
    rw [h a (List.mem_cons_self a t), ih (fun b hb => h b (List.mem_cons_of_mem _ hb))]

theorem setColDF_id {df : DF} {c : String} {f : List RawVal → RawVal}
    (hmem : c ∈ df.cols) (hval : ∀ r ∈ df.rows, getVal df.cols r c = some (f r)) :
    setColDF df c f = df := by
  have hrows : df.rows.map (setRowFun df.cols c f) = df.rows := by
    apply map_eq_self_of
    intro r hr
    have hv := hval r hr
    cases hci2 : colIdx df.cols c with
    | none =>
      have hs := colIdx_isSome_of_mem hmem
      rw [hci2] at hs
      simp at hs
    | some i =>
      simp only [getVal, hci2, Option.bind_some] at hv
      simp only [setRowFun, hci2]
      exact lset_of_get r i (f r) hv
  show DF.mk (setColsFun df.cols c) (df.rows.map (setRowFun df.cols c f)) = df
  rw [setColsFun_of_mem hmem, hrows]

/-! ## Character-level facts for title-casing -/

theorem toNat_ofNat_interval {m : ℕ} (h1 : 65 ≤ m) (h2 : m ≤ 122) :
    (Char.ofNat m).toNat = m := by
  interval_cases m <;> decide

theorem charUpr_toNat {c : Char} (h : isAsciiLower c = true) :
    (charUpr c).toNat = c.toNat - 32 := by
  have hb : 97 ≤ c.toNat ∧ c.toNat ≤ 122 := by simpa [isAsciiLower] using h
  simp only [charUpr, h, if_true]
  exact toNat_ofNat_interval (by omega) (by omega)

theorem charLwr_toNat {c : Char} (h : isAsciiUpper c = true) :
    (charLwr c).toNat = c.toNat + 32 := by
  have hb : 65 ≤ c.toNat ∧ c.toNat ≤ 90 := by simpa [isAsciiUpper] using h
  simp only [charLwr, h, if_true]
  exact toNat_ofNat_interval (by omega) (by omega)

theorem isPyWs_charUpr (c : Char) : isPyWs (charUpr c) = isPyWs c := by
  by_cases h : isAsciiLower c = true
  · have hb : 97 ≤ c.toNat ∧ c.toNat ≤ 122 := by simpa [isAsciiLower] using h
    have ht := charUpr_toNat h
    have l1 : isPyWs (charUpr c) = false := by
      simp [isPyWs, ht]
      omega
    have l2 : isPyWs c = false := by
      simp [isPyWs]
      omega
    rw [l1, l2]
  · simp [charUpr, h]

theorem isPyWs_charLwr (c : Char) : isPyWs (charLwr c) = isPyWs c := by
  by_cases h : isAsciiUpper c = true
  · have hb : 65 ≤ c.toNat ∧ c.toNat ≤ 90 := by simpa [isAsciiUpper] using h
    have ht := charLwr_toNat h
    have l1 : isPyWs (charLwr c) = false := by
      simp [isPyWs, ht]
      omega
    have l2 : isPyWs c = false := by
      simp [isPyWs]
      omega
    rw [l1, l2]
  · simp [charLwr, h]

theorem isCasedChar_charUpr (c : Char) : isCasedChar (charUpr c) = isCasedChar c := by
  by_cases h : isAsciiLower c = true
  · have hb : 97 ≤ c.toNat ∧ c.toNat ≤ 122 := by simpa [isAsciiLower] using h
    have ht := charUpr_toNat h
    have l1 : isCasedChar (charUpr c) = true := by
      simp [isCasedChar, isAsciiLower, isAsciiUpper, ht]
      omega
    have l2 : isCasedChar c = true := by simp [isCasedChar, h]
    rw [l1, l2]
  · simp [charUpr, h]

theorem isCasedChar_charLwr (c : Char) : isCasedChar (charLwr c) = isCasedChar c := by
  by_cases h : isAsciiUpper c = true
  · have hb : 65 ≤ c.toNat ∧ c.toNat ≤ 90 := by simpa [isAsciiUpper] using h
    have ht := charLwr_toNat h
    have l1 : isCasedChar (charLwr c) = true := by
      simp [isCasedChar, isAsciiLower, isAsciiUpper, ht]
      omega
    have l2 : isCasedChar c = true := by simp [isCasedChar, h]
    rw [l1, l2]
  · simp [charLwr, h]

theorem charUpr_charUpr (c : Char) : charUpr (charUpr c) = charUpr c := by
  by_cases h : isAsciiLower c = true
  · have hb : 97 ≤ c.toNat ∧ c.toNat ≤ 122 := by simpa [isAsciiLower] using h
    have ht := charUpr_toNat h
    have hlow : isAsciiLower (charUpr c) = false := by
      simp [isAsciiLower, ht]
      omega
    have hdef : charUpr (charUpr c) =
        if isAsciiLower (charUpr c) then Char.ofNat ((charUpr c).toNat - 32)
        else charUpr c := rfl
    rw [hdef, hlow]
    simp
  · have hfix : charUpr c = c := by simp [charUpr, h]
    rw [hfix, hfix]

theorem charLwr_charLwr (c : Char) : charLwr (charLwr c) = charLwr c := by
  by_cases h : isAsciiUpper c = true
  · have hb : 65 ≤ c.toNat ∧ c.toNat ≤ 90 := by simpa [isAsciiUpper] using h
    have ht := charLwr_toNat h
    have hup : isAsciiUpper (charLwr c) = false := by
      simp [isAsciiUpper, ht]
      omega
    have hdef : charLwr (charLwr c) =
        if isAsciiUpper (charLwr c) then Char.ofNat ((charLwr c).toNat + 32)
        else charLwr c := rfl
    rw [hdef, hup]
    simp
  · have hfix : charLwr c = c := by simp [charLwr, h]
    rw [hfix, hfix]

theorem titleGo_titleGo : ∀ (b : Bool) (l : List Char),
    titleGo b (titleGo b l) = titleGo b l := by
  intro b l
  induction l generalizing b with
  | nil => rfl
  | cons c cs ih =>
    by_cases hc : isCasedChar c = true
    · cases b with
      | false =>
        simp only [titleGo, hc, if_true, Bool.false_eq_true, if_false]
        rw [show isCasedChar (charUpr c) = true from (isCasedChar_charUpr c).trans hc]
        simp only [if_true, charUpr_charUpr, ih true]
      | true =>
        simp only [titleGo, hc, if_true]
        rw [show isCasedChar (charLwr c) = true from (isCasedChar_charLwr c).trans hc]
        simp only [if_true, charLwr_charLwr, ih true]
    · have hcf : isCasedChar c = false := by simpa using hc
      simp only [titleGo, hcf, Bool.false_eq_true, if_false, ih false]

theorem titleGo_map_isPyWs : ∀ (b : Bool) (l : List Char),
    (titleGo b l).map isPyWs = l.map isPyWs := by
  intro b l
  induction l generalizing b with
  | nil => rfl
  | cons c cs ih =>
    by_cases hc : isCasedChar c = true
    · cases b with
      | false =>
        simp only [titleGo, hc, if_true, Bool.false_eq_true, if_false, List.map_cons]
        rw [isPyWs_charUpr, ih true]
      | true =>
        simp only [titleGo, hc, if_true, List.map_cons]
        rw [isPyWs_charLwr, ih true]
    · simp only [titleGo, hc, Bool.false_eq_true, if_false, List.map_cons]
      rw [ih false]

/-! ## Strip/title fixed points -/

theorem dropWhile_first_false {α : Type} (p : α → Bool) (l : List α) {c : α}
    (h : (l.dropWhile p).head? = some c) : p c = false := by
  induction l with
  | nil => simp at h
  | cons a t ih =>
    by_cases ha : p a = true
    · rw [List.dropWhile_cons_of_pos ha] at h
      exact ih h
    · rw [List.dropWhile_cons_of_neg ha] at h
      simp only [List.head?_cons, Option.some.injEq] at h
      subst h
      simpa using ha

theorem dropWhile_eq_self_of {α : Type} (p : α → Bool) (l : List α)
    (h : ∀ c, l.head? = some c → p c = false) : l.dropWhile p = l := by
  cases l with
  | nil => rfl
  | cons a t =>
    have := h a (by simp)
    rw [List.dropWhile_cons_of_neg (by simp [this])]

theorem dropWhile_getLast_or {α : Type} (p : α → Bool) (l : List α) :
    l.dropWhile p = [] ∨ (l.dropWhile p).getLast? = l.getLast? := by
  induction l with
  | nil => left; rfl
  | cons a t ih =>
    by_cases ha : p a = true
    · rw [List.dropWhile_cons_of_pos ha]
      rcases ih with h | h
      · left
        exact h
      · rcases t with _ | ⟨x, t2⟩
        · left
          rfl
        · right
          rw [h, List.getLast?_cons_cons]
    · rw [List.dropWhile_cons_of_neg ha]
      right
      rfl

theorem getLast?_map_f {α β : Type} (f : α → β) (l : List α) :
    (l.map f).getLast? = l.getLast?.map f := by
  rw [← List.head?_reverse, ← List.map_reverse, List.head?_map, List.head?_reverse]

theorem stripL_head_not_ws (l : List Char) {c : Char}
    (h : (stripL l).head? = some c) : isPyWs c = false :=
  dropWhile_first_false isPyWs (stripEndL l) h

theorem stripEndL_getLast_not_ws (l : List Char) {c : Char}
    (h : (stripEndL l).getLast? = some c) : isPyWs c = false := by
  unfold stripEndL at h
  rw [← List.head?_reverse, List.reverse_reverse] at h
  exact dropWhile_first_false isPyWs l.reverse h

theorem stripL_getLast_not_ws (l : List Char) {c : Char}
    (h : (stripL l).getLast? = some c) : isPyWs c = false := by
  unfold stripL at h
  rcases dropWhile_getLast_or isPyWs (stripEndL l) with h2 | h2
  · rw [h2] at h
    simp at h
  · rw [h2] at h
    exact stripEndL_getLast_not_ws l h

theorem stripL_eq_self_of (l : List Char)
    (hh : ∀ c, l.head? = some c → isPyWs c = false)
    (hl : ∀ c, l.getLast? = some c → isPyWs c = false) : stripL l = l := by
  have hend : stripEndL l = l := by
    unfold stripEndL
    rw [dropWhile_eq_self_of isPyWs l.reverse
      (fun c hc => hl c (by rwa [List.head?_reverse] at hc))]
    exact List.reverse_reverse l
  unfold stripL
  rw [hend]
  exact dropWhile_eq_self_of isPyWs l hh

theorem stripL_title_stripL (b : Bool) (l : List Char) :
    stripL (titleGo b (stripL l)) = titleGo b (stripL l) := by
  have hmap := titleGo_map_isPyWs b (stripL l)
  apply stripL_eq_self_of
  · intro c hc
    have h1 : (List.map isPyWs (titleGo b (stripL l))).head? = some (isPyWs c) := by
      rw [List.head?_map, hc]
      rfl
    rw [hmap, List.head?_map] at h1
    rcases Option.map_eq_some'.mp h1 with ⟨c1, hc1, he⟩
    rw [← he]
    exact stripL_head_not_ws l hc1
  · intro c hc
    have h1 : (List.map isPyWs (titleGo b (stripL l))).getLast? = some (isPyWs c) := by
      rw [getLast?_map_f, hc]
      rfl
    rw [hmap, getLast?_map_f] at h1
    rcases Option.map_eq_some'.mp h1 with ⟨c1, hc1, he⟩
    rw [← he]
    exact stripL_getLast_not_ws l hc1

theorem pyStrip_pyTitle_pyStrip (s : String) :
    pyStrip (pyTitle (pyStrip s)) = pyTitle (pyStrip s) := by
  unfold pyStrip pyTitle
  exact congrArg String.mk (stripL_title_stripL false s.data)

theorem pyTitle_pyTitle (s : String) : pyTitle (pyTitle s) = pyTitle s := by
  unfold pyTitle
  exact congrArg String.mk (titleGo_titleGo false s.data)

/-! ## Fixed-point lemmas for the per-column cleaners -/

theorem mandalStr_fix (s : String) :
    mandalClean (.str (if pyTitle (pyStrip s) ∈ mandalSentinels then "N/A"
      else pyTitle (pyStrip s)))
    = (if pyTitle (pyStrip s) ∈ mandalSentinels then "N/A" else pyTitle (pyStrip s)) := by
  by_cases hs : pyTitle (pyStrip s) ∈ mandalSentinels
  · simp only [hs, if_true]
    decide
  · simp only [hs, if_false]
    show (if pyTitle (pyStrip (pyTitle (pyStrip s))) ∈ mandalSentinels then "N/A"
      else pyTitle (pyStrip (pyTitle (pyStrip s)))) = pyTitle (pyStrip s)
    rw [pyStrip_pyTitle_pyStrip, pyTitle_pyTitle]
    simp [hs]

theorem mandalClean_fix (v : RawVal) :
    mandalClean (.str (mandalClean v)) = mandalClean v := by
  rcases v with s | n | q | _
  · exact mandalStr_fix s
  · exact mandalStr_fix (strOfRawVal (.int n))
  · exact mandalStr_fix (strOfRawVal (.rat q))
  · exact mandalStr_fix "N/A"

theorem coercePriority_int (n : ℤ) : coercePriority (.int n) = n := by
  unfold coercePriority toNumericOpt ratTruncZ
  simp only [Rat.num_intCast, Rat.den_intCast, Nat.div_one]
  split
  · omega
  · omega

theorem issuesClean_str (s : String) : issuesClean (.str s) = s := rfl

theorem determine_status_congr {cols1 cols2 : List String} {r1 r2 : List RawVal}
    (hic : getVal cols1 r1 "Is Completed" = getVal cols2 r2 "Is Completed")
    (hmem : ("Status" ∈ cols1) ↔ ("Status" ∈ cols2))
    (hst : getVal cols1 r1 "Status" = getVal cols2 r2 "Status") :
    determine_status cols1 r1 = determine_status cols2 r2 := by
  unfold determine_status
  rw [hic, hst]
  by_cases hm : "Status" ∈ cols2
  · simp [hm, hmem.mpr hm]
  · have h1 : "Status" ∉ cols1 := fun hh => hm (hmem.mp hh)
    simp [hm, h1]

/-! ## Helper lemmas for the budget and issues claims -/

theorem parseMag_nonneg (l : List Char) : 0 ≤ parseMag l := by
  unfold parseMag
  split
  · positivity
  · positivity

theorem parseTok_nonneg (l : List Char) (h : l.head? ≠ some '-') : 0 ≤ parseTok l := by
  cases l with
  | nil => exact parseMag_nonneg []
  | cons c rest =>
    have hm : ¬c = '-' := fun he => h (by rw [he]; rfl)
    by_cases hp : c = '+'
    · simp [parseTok, hm, hp]
      exact parseMag_nonneg rest
    · simp [parseTok, hm, hp]
      exact parseMag_nonneg (c :: rest)

theorem budgetFromTok_nonneg (cr lakh : Bool) {tok : List Char}
    (h : 0 ≤ parseTok tok) : 0 ≤ budgetFromTok cr lakh tok := by
  unfold budgetFromTok
  split_ifs
  · exact mul_nonneg h (by norm_num)
  · exact h
  · exact div_nonneg h (by norm_num)
  · exact h

theorem hasIssuesStr_iff (s : String) :
    hasIssuesStr s = true ↔ 1 < s.length ∧ strLower s ≠ "nan" ∧ pyStrip s ≠ "-" := by
  simp [hasIssuesStr, Bool.and_eq_true, decide_eq_true_eq, Bool.not_eq_true',
    beq_eq_false_iff_ne, and_assoc]

theorem issuesPred_iff (cols : List String) (r : List RawVal) :
    issuesPred cols r = true ↔
    ∃ s, getVal cols r "Issues" = some (RawVal.str s) ∧
      1 < s.length ∧ strLower s ≠ "nan" ∧ pyStrip s ≠ "-" := by
  unfold issuesPred
  cases hv : getVal cols r "Issues" with
  | none => simp
  | some w =>
    cases w with
    | str s => simp [hasIssuesStr_iff]
    | int n => simp
    | rat q => simp
    | na => simp

/-! ## Claim C1 -/

/-- C1: `normalize_budget` resolves units in the spec's precedence order on
the cleaned (lower-cased, comma-stripped) input — crore/cr multiplies the
extracted number by 100, else lakh keeps it, else a bare number over 10000
is divided by 100000, else it is kept — and yields 0 for missing input or
input without a numeric token.  In particular "2 Crore" ↦ 200,
"50 Lakh" ↦ 50, "1500000" ↦ 15, "45" ↦ 45, "" ↦ 0, NaN ↦ 0. -/
theorem C1_normalize_budget_units :
    (∀ v : RawVal, normalize_budget v = budgetSpecRule v) ∧
    normalize_budget (.str "2 Crore") = 200 ∧
    normalize_budget (.str "50 Lakh") = 50 ∧
    normalize_budget (.str "1500000") = 15 ∧
    normalize_budget (.str "45") = 45 ∧
    normalize_budget (.str "") = 0 ∧
    normalize_budget .na = 0 ∧
    (∀ v : RawVal, isna v = true → normalize_budget v = 0) ∧
    (∀ v : RawVal, findNum (budgetClean (strOfRawVal v)).data = none →
      normalize_budget v = 0) := by
  refine ⟨?_, ?_, ?_, ?_, ?_, ?_, ?_, ?_, ?_⟩
  · intro v
    unfold normalize_budget budgetSpecRule budgetFromTok
    rcases v with s | n | q | _ <;> simp [gt_iff_lt]
  · have h1 : findNum (budgetClean (strOfRawVal (.str "2 Crore"))).data = some ['2'] := by
      decide
    have h2 : strContains (budgetClean (strOfRawVal (.str "2 Crore"))) "crore" = true := by
      decide
    have h4 : parseTok ['2'] = 2 := by decide
    simp [normalize_budget, isna, h1, h2, budgetFromTok, h4]
    norm_num
  · decide
  · have h1 : findNum (budgetClean (strOfRawVal (.str "1500000"))).data
        = some ['1', '5', '0', '0', '0', '0', '0'] := by decide
    have h2 : strContains (budgetClean (strOfRawVal (.str "1500000"))) "crore" = false := by
      decide
    have h3 : strContains (budgetClean (strOfRawVal (.str "1500000"))) "cr" = false := by
      decide
    have h5 : strContains (budgetClean (strOfRawVal (.str "1500000"))) "lakh" = false := by
      decide
    have h4 : parseTok ['1', '5', '0', '0', '0', '0', '0'] = 1500000 := by decide
    simp [normalize_budget, isna, h1, h2, h3, h5, budgetFromTok, h4]
    norm_num
  · decide
  · decide
  · rfl
  · intro v hv
    cases v with
    | na => rfl
    | str s => simp [isna] at hv
    | int n => simp [isna] at hv
    | rat q => simp [isna] at hv
  · intro v hv
    simp [normalize_budget, hv]

/-- C1 witness: a string without any numeric token normalizes to 0. -/
theorem C1_witness : normalize_budget (RawVal.str "no budget") = 0 :=
  C1_normalize_budget_units.2.2.2.2.2.2.2.2 (RawVal.str "no budget") (by decide)

/-! ## Claim C2 -/

/-- C2 counterexample: `normalize_budget` can return a negative number — the
token regex accepts a signed decimal, so the input "-3.5" (no unit, below
the 10000 threshold) is returned as −3.5. -/
theorem C2_negative_counterexample : normalize_budget (RawVal.str "-3.5") < 0 := by
  have h1 : findNum (budgetClean (strOfRawVal (.str "-3.5"))).data
      = some ['-', '3', '.', '5'] := by decide
  have h2 : strContains (budgetClean (strOfRawVal (.str "-3.5"))) "crore" = false := by
    decide
  have h3 : strContains (budgetClean (strOfRawVal (.str "-3.5"))) "cr" = false := by decide
  have h5 : strContains (budgetClean (strOfRawVal (.str "-3.5"))) "lakh" = false := by
    decide
  have h4 : parseTok ['-', '3', '.', '5'] = -(parseMag ['3', '.', '5']) := rfl
  have h6 : parseMag ['3', '.', '5'] = (3 : ℚ) + (5 : ℚ) / (10 : ℚ) ^ 1 := by
    simp [parseMag, digitsToNat]
  simp [normalize_budget, isna, h1, h2, h3, h5, budgetFromTok, h4, h6]
  norm_num

/-- C2 (amended): absent or unparseable budgets yield exactly 0, and the
result is non-negative for every input whose extracted first numeric token
does not start with a minus sign; an input whose first token is a signed
decimal such as "-3.5" can be negative. -/
theorem C2_nonneg_amended :
    (∀ v : RawVal, isna v = true → normalize_budget v = 0) ∧
    (∀ v : RawVal, findNum (budgetClean (strOfRawVal v)).data = none →
      normalize_budget v = 0) ∧
    (∀ (v : RawVal) (t : List Char),
      findNum (budgetClean (strOfRawVal v)).data = some t →
      t.head? ≠ some '-' → 0 ≤ normalize_budget v) := by
  refine ⟨?_, ?_, ?_⟩
  · intro v hv
    cases v with
    | na => rfl
    | str s => simp [isna] at hv
    | int n => simp [isna] at hv
    | rat q => simp [isna] at hv
  · intro v hv
    simp [normalize_budget, hv]
  · intro v t ht hh
    by_cases hna : isna v = true
    · simp [normalize_budget, hna]
    · simp [normalize_budget, hna, ht]
      exact budgetFromTok_nonneg _ _ (parseTok_nonneg t hh)

/-- C2 witness: a crore-denominated positive budget is non-negative. -/
theorem C2_witness : 0 ≤ normalize_budget (RawVal.str "7 crore") :=
  C2_nonneg_amended.2.2 (RawVal.str "7 crore") ['7'] (by decide) (by decide)

/-! ## Claim C3 -/

/-- C3 counterexample: a description containing both "SCHOOL" and "ROAD" is
not always classified School/Hostel — an earlier rule can still win, e.g.
"Anganwadi School Road" matches rule 1 and is classified AWC Building. -/
theorem C3_order_counterexample :
    strContains (strUpper (strOfRawVal (RawVal.str "Anganwadi School Road"))) "SCHOOL"
      = true ∧
    strContains (strUpper (strOfRawVal (RawVal.str "Anganwadi School Road"))) "ROAD"
      = true ∧
    categorize_project_revised (RawVal.str "Anganwadi School Road") = "AWC Building" ∧
    categorize_project_revised (RawVal.str "Anganwadi School Road") ≠ "School/Hostel" := by
  refine ⟨by decide, by decide, by decide, by decide⟩

/-- C3 (amended): the categorizer is first-match-wins over the ordered rule
table; a description containing both "SCHOOL" and "ROAD" that matches no
earlier rule (rules 1 and 2) is classified School/Hostel; a description
matching no rule is Uncategorized. -/
theorem C3_first_match_amended :
    (∀ v : RawVal,
      categorize_project_revised v = firstMatch catRules (strUpper (strOfRawVal v))) ∧
    (∀ s : String,
      strContains (strUpper s) "SCHOOL" = true →
      strContains (strUpper s) "ROAD" = true →
      rule1Hit (strUpper s) = false →
      rule2Hit (strUpper s) = false →
      categorize_project_revised (.str s) = "School/Hostel") ∧
    categorize_project_revised (.str "Miscellaneous Item") = "Uncategorized" := by
  refine ⟨?_, ?_, by decide⟩
  · intro v
    rfl
  · intro s h1 h2 h3 h4
    have hr3 : rule3Hit (strUpper s) = true := by
      simp [rule3Hit, h1]
    simp [categorize_project_revised, strOfRawVal, h3, h4, hr3]

/-- C3 witness: "School Road" matches no earlier rule and lands in
School/Hostel. -/
theorem C3_witness : categorize_project_revised (RawVal.str "School Road") = "School/Hostel" :=
  C3_first_match_amended.2.1 "School Road" (by decide) (by decide) (by decide) (by decide)

/-! ## Claim C4 -/

/-- C4: `determine_status` returns "Completed" whenever the completion flag
cell equals 1 (overriding any status text); otherwise the lower-cased
trimmed status text decides — a sentinel ("", "nan", "none", "nat") yields
"N/A", text containing "complete" yields "Completed", anything else yields
"In Progress" — and with no status information the result is "N/A". -/
theorem C4_determine_status :
    (∀ (cols : List String) (r : List RawVal) (v : RawVal),
      getVal cols r "Is Completed" = some v → eqOneRV v = true →
      determine_status cols r = "Completed") ∧
    (∀ (cols : List String) (r : List RawVal) (v : RawVal),
      (getVal cols r "Is Completed").elim false eqOneRV = false →
      "Status" ∈ cols → getVal cols r "Status" = some v →
      determine_status cols r = statusFromText (pyStrip (strLower (strOfRawVal v)))) ∧
    (∀ (cols : List String) (r : List RawVal),
      (getVal cols r "Is Completed").elim false eqOneRV = false →
      "Status" ∉ cols → determine_status cols r = "N/A") ∧
    (statusFromText "" = "N/A" ∧ statusFromText "nan" = "N/A") ∧
    determine_status ["Status"] [RawVal.str "Work Completed 100%"] = "Completed" ∧
    determine_status ["Status"] [RawVal.str "Painting"] = "In Progress" ∧
    determine_status ["Is Completed", "Status"] [RawVal.int 1, RawVal.str "Pending"]
      = "Completed" ∧
    determine_status [] [] = "N/A" := by
  refine ⟨?_, ?_, ?_, by decide, by decide, by decide, by decide, by decide⟩
  · intro cols r v h1 h2
    simp [determine_status, h1, h2]
  · intro cols r v h1 h2 h3
    simp [determine_status, h1, h2, h3]
  · intro cols r h1 h2
    simp [determine_status, h1, h2]

/-- C4 witness: a completion flag equal to 1 forces "Completed". -/
theorem C4_witness : determine_status ["Is Completed"] [RawVal.int 1] = "Completed" :=
  C4_determine_status.1 ["Is Completed"] [RawVal.int 1] (RawVal.int 1) (by decide) (by decide)

/-! ## Claim C5 -/

/-- C5: the Priority coercion does not clamp to {0, 1} — a raw Priority cell
of 2 passes `pd.to_numeric(...).fillna(0).astype(int)` unchanged, so the
canonical Priority is 2, contradicting the spec invariant (and the code's
own "Ensure 0 or 1" comment). -/
theorem C5_priority_not_binary :
    ((clean_dataframe ⟨["Priority"], [[RawVal.int 2]]⟩ none).rows.map
      (fun r => getVal (clean_dataframe ⟨["Priority"], [[RawVal.int 2]]⟩ none).cols
        r "Priority"))
      = [some (RawVal.int 2)] ∧
    coercePriority (RawVal.int 2) = 2 ∧
    RawVal.int 2 ≠ RawVal.int 0 ∧ RawVal.int 2 ≠ RawVal.int 1 := by
  refine ⟨by decide, by decide, by decide, by decide⟩

/-! ## Claim C6 -/

/-- C6 counterexample: on the mock fixtures the completed count is 3 (not 2:
"Anganwadi Center 1" plus the two Medical "Completed" rows) and the
has-issues count is 3 (not 2: "Land Acquisition", "Funds", "Site Dispute"). -/
theorem C6_counts_counterexample :
    completedCount master_mock = 3 ∧ issuesCount master_mock = 3 ∧
    completedCount master_mock ≠ 2 ∧ issuesCount master_mock ≠ 2 := by
  refine ⟨by decide, by decide, by decide, by decide⟩

/-- C6 (amended): on the mock fixtures (five-row PR sheet, four-row Medical
sheet, identical cleaned schemas) the master collection has 9 projects,
3 completed and 3 with issues. -/
theorem C6_mock_counts :
    mock_pr_clean.cols = mock_med_clean.cols ∧
    totalProjects master_mock = 9 ∧
    completedCount master_mock = 3 ∧
    issuesCount master_mock = 3 := by
  refine ⟨by decide, by decide, by decide, by decide⟩

/-! ## Claim C7 -/

/-- C7: the has-issues filter keeps exactly the rows whose Issues string has
length > 1, lower-cases to something other than "nan", and strips to
something other than "-"; consequently no kept row has Issues "", "-", or a
case-insensitive "nan". -/
theorem C7_issues_filter :
    (∀ df : DF, (issuesFilterDF df).rows = df.rows.filter (issuesPred df.cols)) ∧
    (∀ (cols : List String) (r : List RawVal),
      issuesPred cols r = true ↔
      ∃ s, getVal cols r "Issues" = some (RawVal.str s) ∧
        1 < s.length ∧ strLower s ≠ "nan" ∧ pyStrip s ≠ "-") ∧
    (∀ (df : DF) (r : List RawVal), r ∈ (issuesFilterDF df).rows →
      getVal df.cols r "Issues" ≠ some (RawVal.str "") ∧
      getVal df.cols r "Issues" ≠ some (RawVal.str "-") ∧
      ∀ s, getVal df.cols r "Issues" = some (RawVal.str s) → strLower s ≠ "nan") := by
  refine ⟨fun df => rfl, issuesPred_iff, ?_⟩
  intro df r hr
  have hp : issuesPred df.cols r = true := (List.mem_filter.mp hr).2
  rcases (issuesPred_iff df.cols r).mp hp with ⟨s, hs, hlen, hnan, hdash⟩
  refine ⟨?_, ?_, ?_⟩
  · intro he
    rw [he] at hs
    have h2 : "" = s := RawVal.str.inj (Option.some.inj hs)
    rw [← h2] at hlen
    exact absurd hlen (by decide)
  · intro he
    rw [he] at hs
    have h2 : "-" = s := RawVal.str.inj (Option.some.inj hs)
    rw [← h2] at hlen
    exact absurd hlen (by decide)
  · intro s2 hs2
    rw [hs2] at hs
    have h2 : s2 = s := RawVal.str.inj (Option.some.inj hs)
    rw [h2]
    exact hnan

/-- C7 witness: a row with Issues "Funds" passes the filter predicate. -/
theorem C7_witness : issuesPred ["Issues"] [RawVal.str "Funds"] = true :=
  (C7_issues_filter.2.1 ["Issues"] [RawVal.str "Funds"]).mpr
    ⟨"Funds", by decide, by decide, by decide, by decide⟩

theorem aliasLookup_some {rules : List (String × String)} {cl out : String}
    (h : aliasLookup rules cl = some out) :
    ∃ p ∈ rules, strContains cl p.1 = true ∧ p.2 = out := by
  induction rules with
  | nil => simp [aliasLookup] at h
  | cons p rest ih =>
    by_cases hc : strContains cl p.1 = true
    · rw [aliasLookup, if_pos hc] at h
      exact ⟨p, List.mem_cons_self p rest, hc, Option.some.inj h⟩
    · rw [aliasLookup, if_neg hc] at h
      rcases ih h with ⟨q, hq, hqc, hqo⟩
      exact ⟨q, List.mem_cons_of_mem p hq, hqc, hqo⟩

/-! ## Claim C9 -/

/-- C9: a missing Work Name stringifies to "nan" (upper-cased "NAN"), which
matches no rule, so the Project Type computed for any master row whose
Work Name cell is missing is "Uncategorized". -/
theorem C9_missing_workname_uncategorized :
    categorize_project_revised RawVal.na = "Uncategorized" ∧
    strUpper (strOfRawVal RawVal.na) = "NAN" ∧
    (∀ (df : DF) (i : ℕ) (r r2 : List RawVal), df.WF →
      df.rows.get? i = some r →
      (addProjectType df).rows.get? i = some r2 →
      getVal df.cols r "Work Name" = some RawVal.na →
      getVal (addProjectType df).cols r2 "Project Type"
        = some (RawVal.str "Uncategorized")) := by
  refine ⟨by decide, by decide, ?_⟩
  intro df i r r2 hwf hr hr2 hwn
  have hne : df.rows ≠ [] := by
    intro he
    rw [he] at hr
    simp at hr
  have hnm : "Work Name" ∈ df.cols := by
    by_contra hno
    rw [show getVal df.cols r "Work Name" = none from by
      simp [getVal, colIdx_eq_none_of_not_mem hno]] at hwn
    exact Option.noConfusion hwn
  have hcond : df.rows ≠ [] ∧ "Work Name" ∈ df.cols := ⟨hne, hnm⟩
  unfold addProjectType at hr2 ⊢
  rw [if_pos hcond] at hr2 ⊢
  unfold setColDF at hr2 ⊢
  simp only [List.get?_map, hr, Option.map_some'] at hr2
  have hr2v := Option.some.inj hr2
  rw [← hr2v]
  rw [getVal_setRow_self (hwf r (List.get?_mem hr))]
  rw [hwn]
  rfl

/-- C9 witness: a one-row frame with a missing Work Name gets Project Type
"Uncategorized". -/
theorem C9_witness :
    getVal (addProjectType ⟨["Work Name"], [[RawVal.na]]⟩).cols
      [RawVal.na, RawVal.str "Uncategorized"] "Project Type"
      = some (RawVal.str "Uncategorized") :=
  C9_missing_workname_uncategorized.2.2 ⟨["Work Name"], [[RawVal.na]]⟩ 0
    [RawVal.na] [RawVal.na, RawVal.str "Uncategorized"]
    (by unfold DF.WF; decide) (by decide) (by decide) (by decide)

/-! ## Claim C10 -/

/-- C10: only a header whose lower-cased form contains "stage" is renamed to
"Status" (a header already named "Status" is left as such); a header like
"Work Status" contains "status" but is left unrenamed, so its text is never
read by the status resolver and the row's Status Label is "N/A" absent a
completion flag. -/
theorem C10_stage_alias :
    (∀ c : String, mapColName c = "Status" →
      strContains (strLower c) "stage" = true ∨ c = "Status") ∧
    (mapColName "Work Status" = "Work Status" ∧
      strContains (strLower "Work Status") "status" = true ∧
      "Work Status" ≠ "Status") ∧
    (∀ (cols : List String) (r : List RawVal), "Status" ∉ cols →
      (getVal cols r "Is Completed").elim false eqOneRV = false →
      determine_status cols r = "N/A") ∧
    getVal (clean_dataframe ⟨["Work Status"], [[RawVal.str "Work Completed 100%"]]⟩ none).cols
      ((clean_dataframe ⟨["Work Status"], [[RawVal.str "Work Completed 100%"]]⟩ none).rows.headD [])
      "Status Label" = some (RawVal.str "N/A") := by
  refine ⟨?_, by decide, ?_, by decide⟩
  · intro c h
    unfold mapColName at h
    cases ha : aliasLookup colAliasRules (strLower c) with
    | none =>
      rw [ha] at h
      exact Or.inr h
    | some out =>
      rw [ha] at h
      simp only [Option.getD_some] at h
      subst h
      rcases aliasLookup_some ha with ⟨p, hp, hc, hout⟩
      left
      fin_cases hp <;> simp_all
  · intro cols r h1 h2
    simp [determine_status, h1, h2]

/-- C10 witness: with no "Status" column and no completion flag the status
label is "N/A". -/
theorem C10_witness : determine_status ["Work Status"] [RawVal.str "almost done"] = "N/A" :=
  C10_stage_alias.2.2.1 ["Work Status"] [RawVal.str "almost done"] (by decide) (by decide)

/-! ## Idempotence machinery: transporting row facts across column steps -/

theorem carryGetVal {df : DF} {c : String} {f : List RawVal → RawVal} (hwf : df.WF)
    {x : String} (hx : x ≠ c) {P : Option RawVal → Prop}
    (h : ∀ r ∈ df.rows, P (getVal df.cols r x)) :
    ∀ r2 ∈ (setColDF df c f).rows, P (getVal (setColDF df c f).cols r2 x) := by
  intro r2 h2
  obtain ⟨r, hr, rfl⟩ := List.mem_map.mp h2
  show P (getVal (setColsFun df.cols c) (setRowFun df.cols c f r) x)
  rw [getVal_setRow_ne hx (hwf r hr)]
  exact h r hr

theorem carryGetVal2 {df : DF} {c : String} {f : List RawVal → RawVal} (hwf : df.WF)
    {x y : String} (hx : x ≠ c) (hy : y ≠ c)
    {P : Option RawVal → Option RawVal → Prop}
    (h : ∀ r ∈ df.rows, P (getVal df.cols r x) (getVal df.cols r y)) :
    ∀ r2 ∈ (setColDF df c f).rows,
      P (getVal (setColDF df c f).cols r2 x) (getVal (setColDF df c f).cols r2 y) := by
  intro r2 h2
  obtain ⟨r, hr, rfl⟩ := List.mem_map.mp h2
  show P (getVal (setColsFun df.cols c) (setRowFun df.cols c f r) x)
    (getVal (setColsFun df.cols c) (setRowFun df.cols c f r) y)
  rw [getVal_setRow_ne hx (hwf r hr), getVal_setRow_ne hy (hwf r hr)]
  exact h r hr

theorem carryStatusLabel {df : DF} {c : String} {f : List RawVal → RawVal} (hwf : df.WF)
    (h1 : "Status Label" ≠ c) (h2 : "Status" ≠ c) (h3 : "Is Completed" ≠ c)
    (h : ∀ r ∈ df.rows,
      getVal df.cols r "Status Label" = some (.str (determine_status df.cols r))) :
    ∀ r2 ∈ (setColDF df c f).rows,
      getVal (setColDF df c f).cols r2 "Status Label"
        = some (.str (determine_status (setColDF df c f).cols r2)) := by
  intro r2 hr2
  obtain ⟨r, hr, rfl⟩ := List.mem_map.mp hr2
  have hds : determine_status (setColsFun df.cols c) (setRowFun df.cols c f r)
      = determine_status df.cols r :=
    determine_status_congr (getVal_setRow_ne h3 (hwf r hr))
      (mem_setColsFun.trans (or_iff_left h2)) (getVal_setRow_ne h2 (hwf r hr))
  show getVal (setColsFun df.cols c) (setRowFun df.cols c f r) "Status Label"
    = some (.str (determine_status (setColsFun df.cols c) (setRowFun df.cols c f r)))
  rw [getVal_setRow_ne h1 (hwf r hr), hds]
  exact h r hr

theorem stepDept_WF {df : DF} {dept : Option String} (hwf : df.WF) :
    (stepDept df dept).WF := by
  unfold stepDept
  cases dept with
  | none => exact hwf
  | some d => exact setColDF_WF hwf

theorem stepBudget_WF {df : DF} (hwf : df.WF) : (stepBudget df).WF := by
  unfold stepBudget
  split <;> exact setColDF_WF hwf

theorem stepMandal_WF {df : DF} (hwf : df.WF) : (stepMandal df).WF := by
  unfold stepMandal
  split <;> exact setColDF_WF hwf

theorem stepPriority_WF {df : DF} (hwf : df.WF) : (stepPriority df).WF := by
  unfold stepPriority
  split <;> exact setColDF_WF hwf

theorem stepStatusLabel_WF {df : DF} (hwf : df.WF) : (stepStatusLabel df).WF := by
  unfold stepStatusLabel
  exact setColDF_WF hwf

theorem stepBudget_mem {df : DF} {x : String} (hx : x ≠ "Normalized Budget") :
    x ∈ (stepBudget df).cols ↔ x ∈ df.cols := by
  unfold stepBudget
  split <;> exact mem_setColsFun.trans (or_iff_left hx)

theorem stepMandal_mem {df : DF} {x : String} (hx : x ≠ "Mandal") :
    x ∈ (stepMandal df).cols ↔ x ∈ df.cols := by
  unfold stepMandal
  split <;> exact mem_setColsFun.trans (or_iff_left hx)

theorem stepPriority_mem {df : DF} {x : String} (hx : x ≠ "Priority") :
    x ∈ (stepPriority df).cols ↔ x ∈ df.cols := by
  unfold stepPriority
  split <;> exact mem_setColsFun.trans (or_iff_left hx)

theorem stepStatusLabel_mem {df : DF} {x : String} (hx : x ≠ "Status Label") :
    x ∈ (stepStatusLabel df).cols ↔ x ∈ df.cols := by
  unfold stepStatusLabel
  exact mem_setColsFun.trans (or_iff_left hx)

theorem stepIssues_mem {df : DF} {x : String} (hx : x ≠ "Issues") :
    x ∈ (stepIssues df).cols ↔ x ∈ df.cols := by
  unfold stepIssues
  split <;> exact mem_setColsFun.trans (or_iff_left hx)

theorem stepBudget_mem_self {df : DF} : "Normalized Budget" ∈ (stepBudget df).cols := by
  unfold stepBudget
  split <;> exact mem_setColsFun.mpr (Or.inr rfl)

theorem stepMandal_mem_self {df : DF} : "Mandal" ∈ (stepMandal df).cols := by
  unfold stepMandal
  split <;> exact mem_setColsFun.mpr (Or.inr rfl)

theorem stepPriority_mem_self {df : DF} : "Priority" ∈ (stepPriority df).cols := by
  unfold stepPriority
  split <;> exact mem_setColsFun.mpr (Or.inr rfl)

theorem stepStatusLabel_mem_self {df : DF} : "Status Label" ∈ (stepStatusLabel df).cols := by
  unfold stepStatusLabel
  exact mem_setColsFun.mpr (Or.inr rfl)

theorem stepIssues_mem_self {df : DF} : "Issues" ∈ (stepIssues df).cols := by
  unfold stepIssues
  split <;> exact mem_setColsFun.mpr (Or.inr rfl)

theorem stepMandal_carry {df : DF} (hwf : df.WF) {x : String} (hx : x ≠ "Mandal")
    {P : Option RawVal → Prop} (h : ∀ r ∈ df.rows, P (getVal df.cols r x)) :
    ∀ r2 ∈ (stepMandal df).rows, P (getVal (stepMandal df).cols r2 x) := by
  unfold stepMandal
  split <;> exact carryGetVal hwf hx h

theorem stepPriority_carry {df : DF} (hwf : df.WF) {x : String} (hx : x ≠ "Priority")
    {P : Option RawVal → Prop} (h : ∀ r ∈ df.rows, P (getVal df.cols r x)) :
    ∀ r2 ∈ (stepPriority df).rows, P (getVal (stepPriority df).cols r2 x) := by
  unfold stepPriority
  split <;> exact carryGetVal hwf hx h

theorem stepStatusLabel_carry {df : DF} (hwf : df.WF) {x : String}
    (hx : x ≠ "Status Label") {P : Option RawVal → Prop}
    (h : ∀ r ∈ df.rows, P (getVal df.cols r x)) :
    ∀ r2 ∈ (stepStatusLabel df).rows, P (getVal (stepStatusLabel df).cols r2 x) := by
  unfold stepStatusLabel
  exact carryGetVal hwf hx h

theorem stepIssues_carry {df : DF} (hwf : df.WF) {x : String} (hx : x ≠ "Issues")
    {P : Option RawVal → Prop} (h : ∀ r ∈ df.rows, P (getVal df.cols r x)) :
    ∀ r2 ∈ (stepIssues df).rows, P (getVal (stepIssues df).cols r2 x) := by
  unfold stepIssues
  split <;> exact carryGetVal hwf hx h

theorem stepMandal_carry2 {df : DF} (hwf : df.WF) {x y : String}
    (hx : x ≠ "Mandal") (hy : y ≠ "Mandal") {P : Option RawVal → Option RawVal → Prop}
    (h : ∀ r ∈ df.rows, P (getVal df.cols r x) (getVal df.cols r y)) :
    ∀ r2 ∈ (stepMandal df).rows,
      P (getVal (stepMandal df).cols r2 x) (getVal (stepMandal df).cols r2 y) := by
  unfold stepMandal
  split <;> exact carryGetVal2 hwf hx hy h

theorem stepPriority_carry2 {df : DF} (hwf : df.WF) {x y : String}
    (hx : x ≠ "Priority") (hy : y ≠ "Priority") {P : Option RawVal → Option RawVal → Prop}
    (h : ∀ r ∈ df.rows, P (getVal df.cols r x) (getVal df.cols r y)) :
    ∀ r2 ∈ (stepPriority df).rows,
      P (getVal (stepPriority df).cols r2 x) (getVal (stepPriority df).cols r2 y) := by
  unfold stepPriority
  split <;> exact carryGetVal2 hwf hx hy h

theorem stepStatusLabel_carry2 {df : DF} (hwf : df.WF) {x y : String}
    (hx : x ≠ "Status Label") (hy : y ≠ "Status Label")
    {P : Option RawVal → Option RawVal → Prop}
    (h : ∀ r ∈ df.rows, P (getVal df.cols r x) (getVal df.cols r y)) :
    ∀ r2 ∈ (stepStatusLabel df).rows,
      P (getVal (stepStatusLabel df).cols r2 x) (getVal (stepStatusLabel df).cols r2 y) := by
  unfold stepStatusLabel
  exact carryGetVal2 hwf hx hy h

theorem stepIssues_carry2 {df : DF} (hwf : df.WF) {x y : String}
    (hx : x ≠ "Issues") (hy : y ≠ "Issues") {P : Option RawVal → Option RawVal → Prop}
    (h : ∀ r ∈ df.rows, P (getVal df.cols r x) (getVal df.cols r y)) :
    ∀ r2 ∈ (stepIssues df).rows,
      P (getVal (stepIssues df).cols r2 x) (getVal (stepIssues df).cols r2 y) := by
  unfold stepIssues
  split <;> exact carryGetVal2 hwf hx hy h

theorem stepIssues_carryStatus {df : DF} (hwf : df.WF)
    (h : ∀ r ∈ df.rows,
      getVal df.cols r "Status Label" = some (.str (determine_status df.cols r))) :
    ∀ r2 ∈ (stepIssues df).rows,
      getVal (stepIssues df).cols r2 "Status Label"
        = some (.str (determine_status (stepIssues df).cols r2)) := by
  unfold stepIssues
  split <;> exact carryStatusLabel hwf (by decide) (by decide) (by decide) h

/-! ## Idempotence: facts established by each cleaning step -/

theorem stepBudget_value_present {df : DF} (hwf : df.WF)
    (hB : "Budget (Lakhs)" ∈ df.cols) :
    ∀ r2 ∈ (stepBudget df).rows,
      getVal (stepBudget df).cols r2 "Normalized Budget"
        = some (.rat (normalize_budget
            ((getVal (stepBudget df).cols r2 "Budget (Lakhs)").getD .na))) := by
  unfold stepBudget
  rw [if_pos hB]
  simp only [setColDF]
  intro r2 hr2
  obtain ⟨r, hr, rfl⟩ := List.mem_map.mp hr2
  rw [getVal_setRow_self (hwf r hr), getVal_setRow_ne (by decide) (hwf r hr)]

theorem stepBudget_value_absent {df : DF} (hwf : df.WF)
    (hB : "Budget (Lakhs)" ∉ df.cols) :
    ∀ r2 ∈ (stepBudget df).rows,
      getVal (stepBudget df).cols r2 "Normalized Budget" = some (.rat 0) := by
  unfold stepBudget
  rw [if_neg hB]
  simp only [setColDF]
  intro r2 hr2
  obtain ⟨r, hr, rfl⟩ := List.mem_map.mp hr2
  exact getVal_setRow_self (hwf r hr)

theorem stepMandal_value {df : DF} (hwf : df.WF) :
    ∀ r2 ∈ (stepMandal df).rows, ∃ m,
      getVal (stepMandal df).cols r2 "Mandal" = some (.str m) ∧
      mandalClean (.str m) = m := by
  unfold stepMandal
  by_cases hm : "Mandal" ∈ df.cols
  · rw [if_pos hm]
    simp only [setColDF]
    intro r2 hr2
    obtain ⟨r, hr, rfl⟩ := List.mem_map.mp hr2
    exact ⟨mandalClean ((getVal df.cols r "Mandal").getD .na),
      getVal_setRow_self (hwf r hr), mandalClean_fix _⟩
  · rw [if_neg hm]
    simp only [setColDF]
    intro r2 hr2
    obtain ⟨r, hr, rfl⟩ := List.mem_map.mp hr2
    exact ⟨"N/A", getVal_setRow_self (hwf r hr), by decide⟩

theorem stepPriority_value {df : DF} (hwf : df.WF) :
    ∀ r2 ∈ (stepPriority df).rows, ∃ n,
      getVal (stepPriority df).cols r2 "Priority" = some (.int n) := by
  unfold stepPriority
  by_cases hm : "Priority" ∈ df.cols
  · rw [if_pos hm]
    simp only [setColDF]
    intro r2 hr2
    obtain ⟨r, hr, rfl⟩ := List.mem_map.mp hr2
    exact ⟨coercePriority ((getVal df.cols r "Priority").getD .na),
      getVal_setRow_self (hwf r hr)⟩
  · rw [if_neg hm]
    simp only [setColDF]
    intro r2 hr2
    obtain ⟨r, hr, rfl⟩ := List.mem_map.mp hr2
    exact ⟨0, getVal_setRow_self (hwf r hr)⟩

theorem stepStatusLabel_value {df : DF} (hwf : df.WF) :
    ∀ r2 ∈ (stepStatusLabel df).rows,
      getVal (stepStatusLabel df).cols r2 "Status Label"
        = some (.str (determine_status (stepStatusLabel df).cols r2)) := by
  unfold stepStatusLabel
  simp only [setColDF]
  intro r2 hr2
  obtain ⟨r, hr, rfl⟩ := List.mem_map.mp hr2
  have hds : determine_status
      (setColsFun df.cols "Status Label")
      (setRowFun df.cols "Status Label"
        (fun r => RawVal.str (determine_status df.cols r)) r)
      = determine_status df.cols r :=
    determine_status_congr (getVal_setRow_ne (by decide) (hwf r hr))
      (mem_setColsFun.trans (or_iff_left (by decide)))
      (getVal_setRow_ne (by decide) (hwf r hr))
  rw [getVal_setRow_self (hwf r hr), hds]

theorem stepIssues_value {df : DF} (hwf : df.WF) :
    ∀ r2 ∈ (stepIssues df).rows, ∃ s,
      getVal (stepIssues df).cols r2 "Issues" = some (.str s) := by
  unfold stepIssues
  by_cases hm : "Issues" ∈ df.cols
  · rw [if_pos hm]
    simp only [setColDF]
    intro r2 hr2
    obtain ⟨r, hr, rfl⟩ := List.mem_map.mp hr2
    exact ⟨issuesClean ((getVal df.cols r "Issues").getD .na),
      getVal_setRow_self (hwf r hr)⟩
  · rw [if_neg hm]
    simp only [setColDF]
    intro r2 hr2
    obtain ⟨r, hr, rfl⟩ := List.mem_map.mp hr2
    exact ⟨"", getVal_setRow_self (hwf r hr)⟩

/-! ## Idempotence of the cleaning chain -/

theorem cleanSteps_idem (e : DF) (dept : Option String) (hwf : e.WF) :
    cleanSteps (cleanSteps e dept) none = cleanSteps e dept := by
  have hwfA : (stepDept e dept).WF := stepDept_WF hwf
  have hwfB : (stepBudget (stepDept e dept)).WF := stepBudget_WF hwfA
  have hwfC : (stepMandal (stepBudget (stepDept e dept))).WF := stepMandal_WF hwfB
  have hwfD : (stepPriority (stepMandal (stepBudget (stepDept e dept)))).WF :=
    stepPriority_WF hwfC
  have hwfE :
      (stepStatusLabel (stepPriority (stepMandal (stepBudget (stepDept e dept))))).WF :=
    stepStatusLabel_WF hwfD
  set dA := stepDept e dept with hdA
  set dB := stepBudget dA with hdB
  set dC := stepMandal dB with hdC
  set dD := stepPriority dC with hdD
  set dE := stepStatusLabel dD with hdE
  set dG := stepIssues dE with hdG
  have hceq : cleanSteps e dept = dG := rfl
  rw [hceq]
  have hM1 : "Normalized Budget" ∈ dG.cols :=
    (stepIssues_mem (by decide)).mpr ((stepStatusLabel_mem (by decide)).mpr
      ((stepPriority_mem (by decide)).mpr ((stepMandal_mem (by decide)).mpr
        stepBudget_mem_self)))
  have hM2 : "Mandal" ∈ dG.cols :=
    (stepIssues_mem (by decide)).mpr ((stepStatusLabel_mem (by decide)).mpr
      ((stepPriority_mem (by decide)).mpr stepMandal_mem_self))
  have hM3 : "Priority" ∈ dG.cols :=
    (stepIssues_mem (by decide)).mpr ((stepStatusLabel_mem (by decide)).mpr
      stepPriority_mem_self)
  have hM4 : "Status Label" ∈ dG.cols :=
    (stepIssues_mem (by decide)).mpr stepStatusLabel_mem_self
  have hM5 : "Issues" ∈ dG.cols := stepIssues_mem_self
  have hMB : ("Budget (Lakhs)" ∈ dG.cols) ↔ ("Budget (Lakhs)" ∈ dA.cols) :=
    (stepIssues_mem (by decide)).trans ((stepStatusLabel_mem (by decide)).trans
      ((stepPriority_mem (by decide)).trans ((stepMandal_mem (by decide)).trans
        (stepBudget_mem (by decide)))))
  have hV2c : ∀ r ∈ dC.rows, ∃ m,
      getVal dC.cols r "Mandal" = some (.str m) ∧ mandalClean (.str m) = m :=
    stepMandal_value hwfB
  have hV2d : ∀ r ∈ dD.rows, ∃ m,
      getVal dD.cols r "Mandal" = some (.str m) ∧ mandalClean (.str m) = m :=
    @stepPriority_carry dC hwfC "Mandal" (by decide)
      (fun o => ∃ m, o = some (RawVal.str m) ∧ mandalClean (.str m) = m) hV2c
  have hV2e : ∀ r ∈ dE.rows, ∃ m,
      getVal dE.cols r "Mandal" = some (.str m) ∧ mandalClean (.str m) = m :=
    @stepStatusLabel_carry dD hwfD "Mandal" (by decide)
      (fun o => ∃ m, o = some (RawVal.str m) ∧ mandalClean (.str m) = m) hV2d
  have hV2 : ∀ r ∈ dG.rows, ∃ m,
      getVal dG.cols r "Mandal" = some (.str m) ∧ mandalClean (.str m) = m :=
    @stepIssues_carry dE hwfE "Mandal" (by decide)
      (fun o => ∃ m, o = some (RawVal.str m) ∧ mandalClean (.str m) = m) hV2e
  have hV3d : ∀ r ∈ dD.rows, ∃ n, getVal dD.cols r "Priority" = some (.int n) :=
    stepPriority_value hwfC
  have hV3e : ∀ r ∈ dE.rows, ∃ n, getVal dE.cols r "Priority" = some (.int n) :=
    @stepStatusLabel_carry dD hwfD "Priority" (by decide)
      (fun o => ∃ n, o = some (RawVal.int n)) hV3d
  have hV3 : ∀ r ∈ dG.rows, ∃ n, getVal dG.cols r "Priority" = some (.int n) :=
    @stepIssues_carry dE hwfE "Priority" (by decide)
      (fun o => ∃ n, o = some (RawVal.int n)) hV3e
  have hV4 : ∀ r ∈ dG.rows,
      getVal dG.cols r "Status Label" = some (.str (determine_status dG.cols r)) :=
    stepIssues_carryStatus hwfE (stepStatusLabel_value hwfD)
  have hV5 : ∀ r ∈ dG.rows, ∃ s, getVal dG.cols r "Issues" = some (.str s) :=
    stepIssues_value hwfE
  have e2 : stepBudget dG = dG := by
    by_cases hB : "Budget (Lakhs)" ∈ dA.cols
    · have hV1b : ∀ r ∈ dB.rows,
          getVal dB.cols r "Normalized Budget"
            = some (.rat (normalize_budget
                ((getVal dB.cols r "Budget (Lakhs)").getD .na))) :=
        stepBudget_value_present hwfA hB
      have hV1c : ∀ r ∈ dC.rows,
          getVal dC.cols r "Normalized Budget"
            = some (.rat (normalize_budget
                ((getVal dC.cols r "Budget (Lakhs)").getD .na))) :=
        @stepMandal_carry2 dB hwfB "Normalized Budget" "Budget (Lakhs)"
          (by decide) (by decide)
          (fun o1 o2 => o1 = some (RawVal.rat (normalize_budget (o2.getD .na)))) hV1b
      have hV1d : ∀ r ∈ dD.rows,
          getVal dD.cols r "Normalized Budget"
            = some (.rat (normalize_budget
                ((getVal dD.cols r "Budget (Lakhs)").getD .na))) :=
        @stepPriority_carry2 dC hwfC "Normalized Budget" "Budget (Lakhs)"
          (by decide) (by decide)
          (fun o1 o2 => o1 = some (RawVal.rat (normalize_budget (o2.getD .na)))) hV1c
      have hV1e : ∀ r ∈ dE.rows,
          getVal dE.cols r "Normalized Budget"
            = some (.rat (normalize_budget
                ((getVal dE.cols r "Budget (Lakhs)").getD .na))) :=
        @stepStatusLabel_carry2 dD hwfD "Normalized Budget" "Budget (Lakhs)"
          (by decide) (by decide)
          (fun o1 o2 => o1 = some (RawVal.rat (normalize_budget (o2.getD .na)))) hV1d
      have hV1 : ∀ r ∈ dG.rows,
          getVal dG.cols r "Normalized Budget"
            = some (.rat (normalize_budget
                ((getVal dG.cols r "Budget (Lakhs)").getD .na))) :=
        @stepIssues_carry2 dE hwfE "Normalized Budget" "Budget (Lakhs)"
          (by decide) (by decide)
          (fun o1 o2 => o1 = some (RawVal.rat (normalize_budget (o2.getD .na)))) hV1e
      unfold stepBudget
      rw [if_pos (hMB.mpr hB)]
      exact setColDF_id hM1 hV1
    · have hV1b : ∀ r ∈ dB.rows,
          getVal dB.cols r "Normalized Budget" = some (.rat 0) :=
        stepBudget_value_absent hwfA hB
      have hV1c : ∀ r ∈ dC.rows,
          getVal dC.cols r "Normalized Budget" = some (.rat 0) :=
        @stepMandal_carry dB hwfB "Normalized Budget" (by decide)
          (fun o => o = some (RawVal.rat 0)) hV1b
      have hV1d : ∀ r ∈ dD.rows,
          getVal dD.cols r "Normalized Budget" = some (.rat 0) :=
        @stepPriority_carry dC hwfC "Normalized Budget" (by decide)
          (fun o => o = some (RawVal.rat 0)) hV1c
      have hV1e : ∀ r ∈ dE.rows,
          getVal dE.cols r "Normalized Budget" = some (.rat 0) :=
        @stepStatusLabel_carry dD hwfD "Normalized Budget" (by decide)
          (fun o => o = some (RawVal.rat 0)) hV1d
      have hV1 : ∀ r ∈ dG.rows,
          getVal dG.cols r "Normalized Budget" = some (.rat 0) :=
        @stepIssues_carry dE hwfE "Normalized Budget" (by decide)
          (fun o => o = some (RawVal.rat 0)) hV1e
      unfold stepBudget
      rw [if_neg (fun hh => hB (hMB.mp hh))]
      exact setColDF_id hM1 hV1
  have e3 : stepMandal dG = dG := by
    unfold stepMandal
    rw [if_pos hM2]
    apply setColDF_id hM2
    intro r hr
    obtain ⟨m, hm, hfix⟩ := hV2 r hr
    rw [hm]
    simp only [Option.getD_some]
    rw [hfix]
  have e4 : stepPriority dG = dG := by
    unfold stepPriority
    rw [if_pos hM3]
    apply setColDF_id hM3
    intro r hr
    obtain ⟨n, hn⟩ := hV3 r hr
    rw [hn]
    simp only [Option.getD_some, coercePriority_int]
  have e5 : stepStatusLabel dG = dG := by
    unfold stepStatusLabel
    exact setColDF_id hM4 hV4
  have e6 : stepIssues dG = dG := by
    unfold stepIssues
    rw [if_pos hM5]
    apply setColDF_id hM5
    intro r hr
    obtain ⟨s, hs⟩ := hV5 r hr
    rw [hs]
    simp only [Option.getD_some, issuesClean_str]
  show cleanSteps dG none = dG
  unfold cleanSteps
  rw [show stepDept dG none = dG from rfl, e2, e3, e4, e5, e6]

/-! ## Claim C8 -/

/-- C8: normalization is idempotent — re-running the cleaning pass on its own
canonical output, with the canonical headers taken as-is (identity column
mapping, as the property stipulates) and the Department tag passed through,
reproduces the frame exactly: every canonical value is unchanged. -/
theorem C8_normalization_idempotent :
    ∀ (df : DF) (dept : Option String), df.WF →
      clean_dataframe_idmap (clean_dataframe df dept) none = clean_dataframe df dept := by
  intro df dept h
  have hwfR : (renameDF df).WF := by
    intro r hr
    show r.length = (df.cols.map mapColName).length
    rw [List.length_map]
    exact h r hr
  exact cleanSteps_idem (renameDF df) dept hwfR

/-- C8 witness: re-cleaning the cleaned one-row frame changes nothing. -/
theorem C8_witness :
    clean_dataframe_idmap
      (clean_dataframe
        ⟨["Stage", "Budget", "Work Name"],
         [[RawVal.str "Completed", RawVal.int 5, RawVal.str "CC Road X"]]⟩ (some "PR")) none
    = clean_dataframe
        ⟨["Stage", "Budget", "Work Name"],
         [[RawVal.str "Completed", RawVal.int 5, RawVal.str "CC Road X"]]⟩ (some "PR") :=
  C8_normalization_idempotent
    ⟨["Stage", "Budget", "Work Name"],
     [[RawVal.str "Completed", RawVal.int 5, RawVal.str "CC Road X"]]⟩ (some "PR")
    (by unfold DF.WF; decide)
